import Mathlib

/-!
Verification of the crash-game round lifecycle engine (crypto-game).

This file gives a shallow embedding, in Lean 4, of the parts of the
JavaScript source relevant to the frozen claims:

* src/utils/crypto.js     — crash-point generator, verifier, multiplier clock,
                            currency conversion (namespace CryptoUtils);
* src/models/GameRound.js — the round record and its addBet / processCashout /
                            finalizeRound methods;
* src/models/Player.js    — the player record, wallet defaults, updateWallet;
* src/services/GameService.js — placeBet and processCashout orchestration;
* src/routes/game.js (wallet part) — the wallet-create handler.

Numbers are modelled as exact rationals (the source uses JS doubles; every
property proved here is about branch structure, record fields, counts and
exact arithmetic identities that are unaffected by the abstraction, and
wherever the source rounds with Number.prototype.toFixed we model decimal
rounding explicitly).  JS truthiness tests on numbers (such as
!bet.cashoutMultiplier, which is true both for null and for 0) are modelled
faithfully.  The SHA-256 digest invoked through node's crypto module is
embedded as an executable Lean function (FIPS 180-4, checked against the
standard test vector during development).
-/

/-! ## SHA-256 (node crypto.createHash('sha256'), FIPS 180-4) -/

namespace Sha256

/-- 2^32, the word modulus. -/
def M32 : ℕ := 4294967296

/-- Right rotation of a 32-bit word (argument assumed < 2^32). -/
def rotr32 (x n : ℕ) : ℕ := x / 2 ^ n + x % 2 ^ n * 2 ^ (32 - n)

/-- Logical right shift. -/
def shr32 (x n : ℕ) : ℕ := x / 2 ^ n

/-- Bitwise complement on 32 bits. -/
def bnot32 (x : ℕ) : ℕ := x ^^^ 4294967295

/-- SHA-256 choice function. -/
def ch (e f g : ℕ) : ℕ := (e &&& f) ^^^ (bnot32 e &&& g)

/-- SHA-256 majority function. -/
def maj (a b c : ℕ) : ℕ := (a &&& b) ^^^ (a &&& c) ^^^ (b &&& c)

def bigS0 (a : ℕ) : ℕ := rotr32 a 2 ^^^ rotr32 a 13 ^^^ rotr32 a 22

def bigS1 (e : ℕ) : ℕ := rotr32 e 6 ^^^ rotr32 e 11 ^^^ rotr32 e 25

def smallS0 (x : ℕ) : ℕ := rotr32 x 7 ^^^ rotr32 x 18 ^^^ shr32 x 3

def smallS1 (x : ℕ) : ℕ := rotr32 x 17 ^^^ rotr32 x 19 ^^^ shr32 x 10

/-- The 64 SHA-256 round constants. -/
def K : List ℕ :=
  [1116352408, 1899447441, 3049323471, 3921009573, 961987163, 1508970993,
   2453635748, 2870763221, 3624381080, 310598401, 607225278, 1426881987,
   1925078388, 2162078206, 2614888103, 3248222580, 3835390401, 4022224774,
   264347078, 604807628, 770255983, 1249150122, 1555081692, 1996064986,
   2554220882, 2821834349, 2952996808, 3210313671, 3336571891, 3584528711,
   113926993, 338241895, 666307205, 773529912, 1294757372, 1396182291,
   1695183700, 1986661051, 2177026350, 2456956037, 2730485921, 2820302411,
   3259730800, 3345764771, 3516065817, 3600352804, 4094571909, 275423344,
   430227734, 506948616, 659060556, 883997877, 958139571, 1322822218,
   1537002063, 1747873779, 1955562222, 2024104815, 2227730452, 2361852424,
   2428436474, 2756734187, 3204031479, 3329325298]

/-- The eight working registers / hash state words. -/
structure Regs where
  a : ℕ
  b : ℕ
  c : ℕ
  d : ℕ
  e : ℕ
  f : ℕ
  g : ℕ
  h : ℕ
deriving DecidableEq

/-- Initial hash value. -/
def initH : Regs :=
  ⟨1779033703, 3144134277, 1013904242, 2773480762,
   1359893119, 2600822924, 528734635, 1541459225⟩

/-- Word lookup with 0 default. -/
def wAt (l : List ℕ) (i : ℕ) : ℕ := l.getD i 0

/-- Next word of the message schedule, given the schedule so far. -/
def nextW (acc : List ℕ) : ℕ :=
  let i := acc.length
  (smallS1 (wAt acc (i - 2)) + wAt acc (i - 7) +
   smallS0 (wAt acc (i - 15)) + wAt acc (i - 16)) % M32

/-- Extend a 16-word block to the full 64-word message schedule. -/
def extendW (ws : List ℕ) : List ℕ :=
  (List.range 48).foldl (fun acc _ => acc ++ [nextW acc]) ws

/-- One round of the compression function. -/
def roundStep (w : List ℕ) (r : Regs) (i : ℕ) : Regs :=
  let t1 := (r.h + bigS1 r.e + ch r.e r.f r.g + wAt K i + wAt w i) % M32
  let t2 := (bigS0 r.a + maj r.a r.b r.c) % M32
  { a := (t1 + t2) % M32, b := r.a, c := r.b, d := r.c,
    e := (r.d + t1) % M32, f := r.e, g := r.f, h := r.g }

/-- Compress one 16-word block into the running hash state. -/
def compressBlock (st : Regs) (block : List ℕ) : Regs :=
  let w := extendW block
  let r := (List.range 64).foldl (roundStep w) st
  { a := (st.a + r.a) % M32, b := (st.b + r.b) % M32,
    c := (st.c + r.c) % M32, d := (st.d + r.d) % M32,
    e := (st.e + r.e) % M32, f := (st.f + r.f) % M32,
    g := (st.g + r.g) % M32, h := (st.h + r.h) % M32 }

/-- The 8-byte big-endian encoding of the message bit length. -/
def lenBytes (n : ℕ) : List ℕ :=
  [n / 2 ^ 56 % 256, n / 2 ^ 48 % 256, n / 2 ^ 40 % 256, n / 2 ^ 32 % 256,
   n / 2 ^ 24 % 256, n / 2 ^ 16 % 256, n / 2 ^ 8 % 256, n % 256]

/-- FIPS 180-4 padding: append 0x80, zero-pad to 56 mod 64, append bit length. -/
def padBytes (msg : List ℕ) : List ℕ :=
  let L := msg.length
  let z := (64 + 55 - L % 64) % 64
  msg ++ 128 :: List.replicate z 0 ++ lenBytes (8 * L)

/-- Group bytes into 32-bit big-endian words. -/
def bytesToWords : List ℕ → List ℕ
  | a :: b :: c :: d :: rest => (a * 16777216 + b * 65536 + c * 256 + d) :: bytesToWords rest
  | _ => []

/-- Split a word list into 16-word blocks. -/
def blocksOf16 (l : List ℕ) : List (List ℕ) :=
  if h : l = [] then []
  else l.take 16 :: blocksOf16 (l.drop 16)
termination_by l.length
decreasing_by
  simp only [List.length_drop]
  exact Nat.sub_lt (List.length_pos.mpr h) (by norm_num)

/-- SHA-256 of a byte list, as the eight 32-bit state words. -/
def sha256 (msg : List ℕ) : Regs :=
  (blocksOf16 (bytesToWords (padBytes msg))).foldl compressBlock initH

/-- Big-endian bytes of one 32-bit word. -/
def wordBytes (w : ℕ) : List ℕ := [w / 2 ^ 24 % 256, w / 2 ^ 16 % 256, w / 2 ^ 8 % 256, w % 256]

/-- The 32 digest bytes (the hex string in the source, two hex chars per byte). -/
def digestBytes (st : Regs) : List ℕ :=
  wordBytes st.a ++ wordBytes st.b ++ wordBytes st.c ++ wordBytes st.d ++
  wordBytes st.e ++ wordBytes st.f ++ wordBytes st.g ++ wordBytes st.h

/-- Buffer.readUInt32BE(0): the first four bytes as a big-endian integer. -/
def readUInt32BE (bs : List ℕ) : ℕ :=
  wAt bs 0 * 16777216 + wAt bs 1 * 65536 + wAt bs 2 * 256 + wAt bs 3

/-- UTF-8 encoding of one code point. -/
def charUtf8 (n : ℕ) : List ℕ :=
  if n < 128 then [n]
  else if n < 2048 then [192 + n / 64, 128 + n % 64]
  else if n < 65536 then [224 + n / 4096, 128 + n / 64 % 64, 128 + n % 64]
  else [240 + n / 262144, 128 + n / 4096 % 64, 128 + n / 64 % 64, 128 + n % 64]

/-- UTF-8 bytes of a string (node hash.update uses utf8). -/
def utf8Bytes (s : String) : List ℕ := (s.data.map (fun c => charUtf8 c.toNat)).flatten

end Sha256

/-! ## Rational-number helpers used to model JS number operations -/

/-- Floor of a rational, computed with floor division (kept executable). -/
def ratFloor (q : ℚ) : ℤ := q.num.fdiv q.den

/-- Number.prototype.toFixed(4) followed by parseFloat: round to the nearest
multiple of 10^-4, ties toward positive infinity (ECMA-262 picks the larger
candidate on a tie). -/
def round4 (q : ℚ) : ℚ := (ratFloor (q * 10000 + 1 / 2) : ℚ) / 10000

/-- Number.prototype.toFixed(8) followed by parseFloat (crypto amounts). -/
def round8 (q : ℚ) : ℚ := (ratFloor (q * 100000000 + 1 / 2) : ℚ) / 100000000

/-- Math.abs. -/
def qabs (q : ℚ) : ℚ := if q < 0 then -q else q

/-- ASCII lower-casing of one character (String.prototype.toLowerCase on the
ASCII identifiers used by the game). -/
def lowerChar (c : Char) : Char :=
  if c.toNat < 91 ∧ 64 < c.toNat then Char.ofNat (c.toNat + 32) else c

/-- ASCII lower-casing of a string. -/
def lowerStr (s : String) : String := ⟨s.data.map lowerChar⟩

/-! ## src/utils/crypto.js — CryptoUtils -/

namespace CryptoUtils

/-- The 1% house edge hard-coded in generateCrashPoint. -/
def houseEdge : ℚ := 1 / 100

/-- MAX_CRASH_MULTIPLIER: parseFloat(process.env.MAX_CRASH_MULTIPLIER) || 100,
modelled at its default, 100. -/
def maxCrash : ℚ := 100

/-- The record returned by generateCrashPoint.  The hex hash string is
modelled as its 32 digest bytes (two hex characters per byte). -/
structure CrashResult where
  crashPoint : ℚ
  seed : String
  hash : List ℕ
  randomValue : ℚ
deriving DecidableEq

/-- generateCrashPoint(seed, roundId) (src/utils/crypto.js lines 11-39):
hash the string seed ++ "-" ++ roundId with SHA-256; the first 8 bytes of the
hex digest form the Buffer, of which readUInt32BE(0) reads bytes 0-3
big-endian; normalize to [0,1) by 2^32; apply the house-edge formula; cap at
the configured maximum. -/
def generateCrashPoint (seed roundId : String) : CrashResult :=
  let hashInput := seed ++ "-" ++ roundId
  let hash := Sha256.digestBytes (Sha256.sha256 (Sha256.utf8Bytes hashInput))
  let randomValue : ℚ := (Sha256.readUInt32BE hash : ℚ) / 2 ^ 32
  let crashPoint := max 1 ((1 / (1 - randomValue)) * (1 - houseEdge))
  { crashPoint := min crashPoint maxCrash,
    seed := seed, hash := hash, randomValue := randomValue }

/-- verifyCrashPoint(crashPoint, seed, roundId) (lines 48-56): regenerate and
compare within the 1e-3 tolerance. -/
def verifyCrashPoint (crashPoint : ℚ) (seed roundId : String) : Bool :=
  decide (qabs ((generateCrashPoint seed roundId).crashPoint - crashPoint) < 1 / 1000)

/-- calculateMultiplier(elapsedTime, growthFactor = 0.01) (lines 96-100).
Note the source has no guard for negative elapsed time. -/
def calculateMultiplier (elapsedTime growthFactor : ℚ) : ℚ :=
  let timeInSeconds := elapsedTime / 1000
  round4 (1 + timeInSeconds * growthFactor)

/-- usdToCrypto(usdAmount, currency, pricePerCrypto) (lines 65-72); throws on
non-positive amount or price, otherwise converts and keeps 8 decimals. -/
def usdToCrypto (usdAmount pricePerCrypto : ℚ) : Option ℚ :=
  if usdAmount ≤ 0 ∨ pricePerCrypto ≤ 0 then none
  else some (round8 (usdAmount / pricePerCrypto))

/-- isValidCurrency(currency) (lines 136-139). -/
def isValidCurrency (currency : String) : Bool :=
  lowerStr currency == "btc" || lowerStr currency == "eth"

end CryptoUtils

/-! ## Error kinds thrown by the engine (the Error messages in the source) -/

/-- The caller-facing failure kinds.  Each constructor corresponds to one
thrown Error message (or rejected persistence write) in the source. -/
inductive GameError where
  /-- new Error('Invalid bet amount') -/
  | invalidBetAmount
  /-- new Error('Invalid currency') -/
  | invalidCurrency
  /-- new Error('No active round accepting bets') -/
  | noRoundAcceptingBets
  /-- new Error('Unable to get current crypto price') -/
  | priceUnavailable
  /-- new Error('Invalid amount or price') thrown by usdToCrypto -/
  | invalidAmountOrPrice
  /-- new Error('Insufficient USD balance') -/
  | insufficientBalance
  /-- new Error('No active round for cashout') -/
  | noActiveRound
  /-- new Error('No active bet found for player') — the NoOpenWager kind -/
  | noOpenWager
  /-- new Error('Player not found') -/
  | playerNotFound
  /-- HTTP 400 'Player already exists' (wallet create route) -/
  | playerAlreadyExists
  /-- a rejected persistence write (mongoose save/updateOne failure) -/
  | dbFailure
deriving DecidableEq

/-! ## src/models/GameRound.js — bet and round records -/

/-- JS truthiness of a nullable number: !x is true for null and for 0.
The source tests open wagers with !bet.cashoutMultiplier. -/
def jsFalsy (x : Option ℚ) : Bool := x.getD 0 == 0

/-- One entry of the betSchema (src/models/GameRound.js lines 3-55).
Dates are modelled as integer epoch milliseconds. -/
structure Bet where
  playerId : String
  username : String
  usdAmount : ℚ
  cryptoAmount : ℚ
  currency : String
  priceAtTime : ℚ
  cashoutMultiplier : Option ℚ
  cashoutCryptoAmount : Option ℚ
  cashoutUsdAmount : Option ℚ
  isWinner : Bool
  betTime : ℤ
  cashoutTime : Option ℤ
deriving DecidableEq

/-- The bet data constructed by placeBet (schema defaults for the cashout
fields: null / null / null / false / null). -/
def mkBet (playerId username : String) (usdAmount cryptoAmount : ℚ)
    (currency : String) (priceAtTime : ℚ) (betTime : ℤ) : Bet :=
  { playerId := playerId, username := username, usdAmount := usdAmount,
    cryptoAmount := cryptoAmount, currency := currency, priceAtTime := priceAtTime,
    cashoutMultiplier := none, cashoutCryptoAmount := none, cashoutUsdAmount := none,
    isWinner := false, betTime := betTime, cashoutTime := none }

/-- The round status enum (gameRoundSchema.status). -/
inductive RoundStatus where
  | waiting
  | active
  | crashed
  | completed
deriving DecidableEq

/-- gameRoundSchema (src/models/GameRound.js lines 57-116). -/
structure GameRound where
  roundId : String
  status : RoundStatus
  startTime : ℤ
  endTime : Option ℤ
  crashPoint : ℚ
  seed : String
  hash : List ℕ
  maxMultiplier : ℚ
  bets : List Bet
  totalBets : ℚ
  totalCashouts : ℚ
  totalWinners : ℕ
  totalLosers : ℕ
  houseProfit : ℚ
deriving DecidableEq

/-- A round as built by GameService.startNewRound: explicit fields plus the
schema defaults. -/
def GameRound.create (roundId : String) (startTime : ℤ) (crashPoint : ℚ)
    (seed : String) (hash : List ℕ) : GameRound :=
  { roundId := roundId, status := .waiting, startTime := startTime, endTime := none,
    crashPoint := crashPoint, seed := seed, hash := hash, maxMultiplier := 0,
    bets := [], totalBets := 0, totalCashouts := 0, totalWinners := 0,
    totalLosers := 0, houseProfit := 0 }

/-- gameRoundSchema.methods.addBet (lines 125-129): push the bet and add its
usdAmount to totalBets. -/
def GameRound.addBet (r : GameRound) (betData : Bet) : GameRound :=
  { r with bets := r.bets ++ [betData], totalBets := r.totalBets + betData.usdAmount }

/-- Does this bet belong to the player and count as an open wager for the
source's find predicate b.playerId === playerId && !b.cashoutMultiplier? -/
def betOpenFor (playerId : String) (b : Bet) : Bool :=
  b.playerId == playerId && jsFalsy b.cashoutMultiplier

/-- The number of bets the source's open-wager predicate matches. -/
def openCountFor (playerId : String) (bs : List Bet) : ℕ :=
  (bs.filter (betOpenFor playerId)).length

/-- The in-place mutation processCashout performs on the found bet
(lines 138-142). -/
def settleBet (b : Bet) (multiplier : ℚ) (now : ℤ) : Bet :=
  { b with cashoutMultiplier := some multiplier,
           cashoutCryptoAmount := some (b.cryptoAmount * multiplier),
           cashoutUsdAmount := some (b.cryptoAmount * multiplier * b.priceAtTime),
           isWinner := true,
           cashoutTime := some now }

/-- Array.prototype.find on the open-wager predicate followed by the in-place
mutation of the found element: returns the updated list and the settled bet,
or none when no bet matches. -/
def settleFirst (playerId : String) (multiplier : ℚ) (now : ℤ) :
    List Bet → Option (List Bet × Bet)
  | [] => none
  | b :: bs =>
    if betOpenFor playerId b then
      some (settleBet b multiplier now :: bs, settleBet b multiplier now)
    else
      match settleFirst playerId multiplier now bs with
      | none => none
      | some (bs', sb) => some (b :: bs', sb)

/-- gameRoundSchema.methods.processCashout (lines 132-148): find the player's
open bet (throwing 'No active bet found for player' when there is none), fill
its cashout fields, and add the payout to the cashout aggregates. -/
def GameRound.processCashout (r : GameRound) (playerId : String) (multiplier : ℚ)
    (now : ℤ) : Except GameError (GameRound × Bet) :=
  match settleFirst playerId multiplier now r.bets with
  | none => .error .noOpenWager
  | some (bets', sb) =>
      .ok ({ r with
              bets := bets',
              totalCashouts := r.totalCashouts + sb.cashoutUsdAmount.getD 0,
              totalWinners := r.totalWinners + 1 }, sb)

/-- gameRoundSchema.methods.finalizeRound (lines 151-163): set status to
crashed, stamp endTime, count the bets the open-wager predicate still matches
as losers, and compute houseProfit = totalBets - totalCashouts.  The bets
themselves are not modified. -/
def GameRound.finalizeRound (r : GameRound) (now : ℤ) : GameRound :=
  { r with status := .crashed,
           endTime := some now,
           totalLosers := (r.bets.filter (fun b => jsFalsy b.cashoutMultiplier)).length,
           houseProfit := r.totalBets - r.totalCashouts }

/-! ## src/models/Player.js — player record and wallet -/

/-- playerSchema.wallet with its schema defaults (btc 0, eth 0, usd 1000). -/
structure Wallet where
  btc : ℚ
  eth : ℚ
  usd : ℚ
deriving DecidableEq

/-- playerSchema (src/models/Player.js lines 3-54); timestamp bookkeeping
(createdAt / lastActive) is not modelled. -/
structure Player where
  playerId : String
  username : String
  wallet : Wallet
  totalBets : ℚ
  totalWins : ℚ
  totalLosses : ℚ
deriving DecidableEq

/-- new Player({playerId, username}): every other field takes its schema
default — wallet {btc 0, eth 0, usd 1000}, stats 0. -/
def mkPlayer (playerId username : String) : Player :=
  { playerId := playerId, username := username,
    wallet := { btc := 0, eth := 0, usd := 1000 },
    totalBets := 0, totalWins := 0, totalLosses := 0 }

/-- playerSchema.methods.updateWallet (lines 62-72): add amount to the field
selected by the currency string; unknown currencies change nothing. -/
def Player.updateWallet (p : Player) (currency : String) (amount : ℚ) : Player :=
  if currency == "usd" then { p with wallet := { p.wallet with usd := p.wallet.usd + amount } }
  else if currency == "btc" then { p with wallet := { p.wallet with btc := p.wallet.btc + amount } }
  else if currency == "eth" then { p with wallet := { p.wallet with eth := p.wallet.eth + amount } }
  else p

/-! ## src/models/Transaction.js — the audit record written on each mutation -/

/-- The Transaction fields relevant to the claims (identifier and hash
generation draw on randomness and are not modelled). -/
structure Txn where
  playerId : String
  username : String
  txnType : String
  roundId : String
  currency : String
  usdAmount : ℚ
  cryptoAmount : ℚ
  priceAtTime : ℚ
  multiplier : Option ℚ
  balanceBefore : Wallet
  balanceAfter : Wallet
deriving DecidableEq

/-! ## src/services/GameService.js — the settlement engine

The service owns the in-memory current round (this.currentRound) and reads /
writes players through the persistence layer; ServiceState bundles both, with
the players list standing for the authoritative player store (findOne = first
match on playerId, save = replace-or-insert). -/

structure ServiceState where
  currentRound : Option GameRound
  players : List Player
  txns : List Txn
deriving DecidableEq

/-- Player.findOne({playerId}). -/
def findPlayer (ps : List Player) (playerId : String) : Option Player :=
  ps.find? (fun p => p.playerId == playerId)

/-- player.save(): replace the stored document, or insert it when new. -/
def savePlayer : List Player → Player → List Player
  | [], p => [p]
  | q :: qs, p => if q.playerId == p.playerId then p :: qs else q :: savePlayer qs p

/-- Which of placeBet's awaited persistence writes succeed.  Each field is one
await in source order: round.addBet's save, the wallet-debit save, the
transaction insert, and the final stats save.  allWritesOk models a run
without storage failures. -/
structure FaultOracle where
  addBetOk : Bool
  walletOk : Bool
  txnOk : Bool
  statsOk : Bool
deriving DecidableEq

def allWritesOk : FaultOracle := ⟨true, true, true, true⟩

/-- The success payload of placeBet ({success, betData, playerBalance}). -/
structure BetReceipt where
  betData : Bet
  playerBalance : Wallet
deriving DecidableEq

/-- The transaction record placeBet writes.  The source computes
balanceBefore by adding the stake back onto the already debited wallet. -/
def betTxn (playerId username : String) (usdAmount cryptoAmount pricePerCrypto : ℚ)
    (roundId currency : String) (player1 : Player) : Txn :=
  { playerId := playerId, username := username, txnType := "bet",
    roundId := roundId, currency := currency,
    usdAmount := usdAmount, cryptoAmount := cryptoAmount,
    priceAtTime := pricePerCrypto, multiplier := none,
    balanceBefore := { player1.wallet with usd := player1.wallet.usd + usdAmount },
    balanceAfter := player1.wallet }

/-- GameService.placeBet (src/services/GameService.js lines 200-309), with the
price already looked up (price = prices[currency], none when missing).
Validation order, the balance check, and the addBet → updateWallet →
transaction.save → stats save sequence follow the source; a failed write
aborts at its position, keeping every mutation already applied. -/
def GameService.placeBet (st : ServiceState) (o : FaultOracle)
    (playerId username : String) (usdAmount : ℚ) (currency : String)
    (price : Option ℚ) (now : ℤ) : ServiceState × Except GameError BetReceipt :=
  if usdAmount ≤ 0 then (st, .error .invalidBetAmount)
  else if ¬ CryptoUtils.isValidCurrency currency then (st, .error .invalidCurrency)
  else
    match st.currentRound with
    | none => (st, .error .noRoundAcceptingBets)
    | some round =>
      if round.status ≠ .waiting then (st, .error .noRoundAcceptingBets)
      else
        match price with
        | none => (st, .error .priceUnavailable)
        | some pricePerCrypto =>
          if pricePerCrypto ≤ 0 then (st, .error .priceUnavailable)
          else
            match CryptoUtils.usdToCrypto usdAmount pricePerCrypto with
            | none => (st, .error .invalidAmountOrPrice)
            | some cryptoAmount =>
              let player := (findPlayer st.players playerId).getD (mkPlayer playerId username)
              if player.wallet.usd < usdAmount then (st, .error .insufficientBalance)
              else
                let betData := mkBet playerId username usdAmount cryptoAmount
                  (lowerStr currency) pricePerCrypto now
                let round1 := round.addBet betData
                let st1 := { st with currentRound := some round1 }
                if ¬ o.addBetOk then (st1, .error .dbFailure)
                else if ¬ o.walletOk then (st1, .error .dbFailure)
                else
                  let player1 := player.updateWallet "usd" (-usdAmount)
                  let st2 := { st1 with players := savePlayer st1.players player1 }
                  if ¬ o.txnOk then (st2, .error .dbFailure)
                  else
                    let txn : Txn :=
                      betTxn playerId username usdAmount cryptoAmount pricePerCrypto
                        round1.roundId (lowerStr currency) player1
                    let st3 := { st2 with txns := st2.txns ++ [txn] }
                    if ¬ o.statsOk then (st3, .error .dbFailure)
                    else
                      let player2 := { player1 with totalBets := player1.totalBets + usdAmount }
                      ({ st3 with players := savePlayer st3.players player2 },
                       .ok { betData := betData, playerBalance := player1.wallet })

/-- The data the cashout continuation needs after the settle step: the values
GameService.processCashout computes from activeBet and the settled bet before
crediting the player. -/
structure PendingCredit where
  currency : String
  payoutCrypto : ℚ
  payoutUsd : ℚ
  priceAtTime : ℚ
  multiplier : ℚ
  roundId : String
deriving DecidableEq

/-- The success payload of processCashout. -/
structure CashoutResult where
  multiplier : ℚ
  payoutCrypto : ℚ
  payoutUsd : ℚ
  playerBalance : Wallet
deriving DecidableEq

/-- The synchronous head of GameService.processCashout (lines 314-334): the
round-status gate, the open-bet find, the live-multiplier computation and the
in-memory settlement done by round.processCashout.  In node this whole
segment runs without yielding (GameRound.processCashout mutates the document
before its save() is awaited), so it is one atomic step of the event loop. -/
def GameService.cashoutSettle (st : ServiceState) (playerId : String) (now : ℤ)
    (growthFactor : ℚ) : ServiceState × Except GameError PendingCredit :=
  match st.currentRound with
  | none => (st, .error .noActiveRound)
  | some round =>
    if round.status ≠ .active then (st, .error .noActiveRound)
    else
      match round.bets.find? (betOpenFor playerId) with
      | none => (st, .error .noOpenWager)
      | some activeBet =>
        let elapsedTime : ℚ := ((now - round.startTime : ℤ) : ℚ)
        let currentMultiplier := CryptoUtils.calculateMultiplier elapsedTime growthFactor
        match round.processCashout playerId currentMultiplier now with
        | .error e => (st, .error e)
        | .ok (round1, sb) =>
          ({ st with currentRound := some round1 },
           .ok { currency := activeBet.currency,
                 payoutCrypto := activeBet.cryptoAmount * currentMultiplier,
                 payoutUsd := sb.cashoutUsdAmount.getD 0,
                 priceAtTime := activeBet.priceAtTime,
                 multiplier := currentMultiplier,
                 roundId := round.roundId })

/-- The player update the cashout continuation performs: credit the
settlement-currency balance (player.updateWallet) and bump totalWins. -/
def creditedPlayer (p : Player) (c : PendingCredit) : Player :=
  let p1 := p.updateWallet c.currency c.payoutCrypto
  { p1 with totalWins := p1.totalWins + c.payoutUsd }

/-- The transaction record the cashout continuation writes.  The source reads
player.wallet after the credit for both balanceBefore and balanceAfter. -/
def cashoutTxn (playerId username : String) (p : Player) (c : PendingCredit) : Txn :=
  { playerId := playerId, username := username, txnType := "cashout",
    roundId := c.roundId, currency := c.currency, usdAmount := c.payoutUsd,
    cryptoAmount := c.payoutCrypto, priceAtTime := c.priceAtTime,
    multiplier := some c.multiplier,
    balanceBefore := (p.updateWallet c.currency c.payoutCrypto).wallet,
    balanceAfter := (p.updateWallet c.currency c.payoutCrypto).wallet }

/-- The continuation of GameService.processCashout after its awaits (lines
336-402): fetch the player, credit the settlement-currency balance, bump
totalWins, write the transaction record. -/
def GameService.cashoutCredit (st : ServiceState) (playerId username : String)
    (c : PendingCredit) : ServiceState × Except GameError CashoutResult :=
  match findPlayer st.players playerId with
  | none => (st, .error .playerNotFound)
  | some player =>
    ({ st with
        players := savePlayer st.players (creditedPlayer player c),
        txns := st.txns ++ [cashoutTxn playerId username player c] },
     .ok { multiplier := c.multiplier, payoutCrypto := c.payoutCrypto,
           payoutUsd := c.payoutUsd, playerBalance := (creditedPlayer player c).wallet })

/-- GameService.processCashout run to completion with no interleaved calls:
the settle step followed, on success, by the credit step. -/
def GameService.processCashout (st : ServiceState) (playerId username : String)
    (now : ℤ) (growthFactor : ℚ) : ServiceState × Except GameError CashoutResult :=
  match GameService.cashoutSettle st playerId now growthFactor with
  | (st1, .error e) => (st1, .error e)
  | (st1, .ok c) => GameService.cashoutCredit st1 playerId username c

/-- POST /api/wallet/create (src/routes/game.js wallet router lines 486-528):
reject when a player with the same playerId or username exists, otherwise
save a fresh default player. -/
def walletCreate (st : ServiceState) (playerId username : String) :
    ServiceState × Except GameError Player :=
  if (st.players.find? (fun p => p.playerId == playerId || p.username == username)).isSome then
    (st, .error .playerAlreadyExists)
  else
    let player := mkPlayer playerId username
    ({ st with players := savePlayer st.players player }, .ok player)

/-! ## Concurrent cashout calls — the event-loop interleaving model

Node runs each async function synchronously until its first await of a
pending promise; distinct in-flight calls interleave only at those awaits.
A cashout call therefore has two atomic steps: cashoutSettle (everything up
to and including the in-memory settlement) and cashoutCredit (the
continuation after the awaited saves and player fetch).  A scheduler picks
which pending call advances next; every interleaving of N concurrent calls
is some schedule. -/

/-- Progress of one in-flight cashout call. -/
inductive CallPhase where
  | idle
  | pendingCredit (c : PendingCredit)
  | failed (e : GameError)
  | finished (res : CashoutResult)
deriving DecidableEq

/-- The per-call arguments of one concurrent cashout request (all for the
same participant in the claims considered here). -/
structure CashoutCall where
  username : String
  now : ℤ
deriving DecidableEq

/-- Advance call i by one atomic step (no-op for finished or unknown calls). -/
def raceStep (playerId : String) (growthFactor : ℚ) (calls : List CashoutCall)
    (s : ServiceState × List CallPhase) (i : ℕ) : ServiceState × List CallPhase :=
  match s.2[i]?, calls[i]? with
  | some CallPhase.idle, some call =>
      (match GameService.cashoutSettle s.1 playerId call.now growthFactor with
       | (st1, .error e) => (st1, s.2.set i (.failed e))
       | (st1, .ok c) => (st1, s.2.set i (.pendingCredit c)))
  | some (CallPhase.pendingCredit c), some call =>
      (match GameService.cashoutCredit s.1 playerId call.username c with
       | (st1, .error e) => (st1, s.2.set i (.failed e))
       | (st1, .ok res) => (st1, s.2.set i (.finished res)))
  | _, _ => s

/-- Run a whole schedule of interleaved steps. -/
def runRace (playerId : String) (growthFactor : ℚ) (calls : List CashoutCall)
    (s0 : ServiceState × List CallPhase) (sched : List ℕ) : ServiceState × List CallPhase :=
  sched.foldl (raceStep playerId growthFactor calls) s0

/-- All calls have reached a terminal phase (failed or finished). -/
def allSettled (phases : List CallPhase) : Prop :=
  ∀ ph ∈ phases, (∃ e, ph = CallPhase.failed e) ∨ (∃ res, ph = CallPhase.finished res)

/-! ## Proof infrastructure: the race invariant and the round invariant -/

/-- A round's totalBets aggregate equals the sum of the usdAmount of its
recorded bets. -/
def totalBetsInvariant (r : GameRound) : Prop :=
  r.totalBets = (r.bets.map Bet.usdAmount).sum

/-- Invariant of the interleaving model for N concurrent cashout calls by one
participant against an initial state st0 whose active round has exactly one
open wager for that participant: either no call has run yet, or exactly one
call k has won the settlement (and is pending its credit or has finished it)
while every other call is still idle or has failed with NoOpenWager. -/
def raceInv (pid : String) (g : ℚ) (calls : List CashoutCall) (st0 : ServiceState)
    (p0 : Player) (s : ServiceState × List CallPhase) : Prop :=
  s.2.length = calls.length ∧
  ((s.1 = st0 ∧ ∀ ph ∈ s.2, ph = CallPhase.idle) ∨
   (∃ k : ℕ, ∃ call : CashoutCall, ∃ r1 : GameRound, ∃ c : PendingCredit,
     calls[k]? = some call ∧
     GameService.cashoutSettle st0 pid call.now g =
       ({ st0 with currentRound := some r1 }, .ok c) ∧
     r1.status = .active ∧ openCountFor pid r1.bets = 0 ∧
     (∀ j, j ≠ k → ∀ ph, s.2[j]? = some ph →
       ph = CallPhase.idle ∨ ph = CallPhase.failed .noOpenWager) ∧
     ((s.2[k]? = some (CallPhase.pendingCredit c) ∧
       s.1 = { st0 with currentRound := some r1 }) ∨
      (s.2[k]? = some (CallPhase.finished
         { multiplier := c.multiplier, payoutCrypto := c.payoutCrypto,
           payoutUsd := c.payoutUsd, playerBalance := (creditedPlayer p0 c).wallet }) ∧
       s.1 = { st0 with
                currentRound := some r1,
                players := savePlayer st0.players (creditedPlayer p0 c),
                txns := st0.txns ++ [cashoutTxn pid call.username p0 c] }))))

/-! ## Concrete sample data used by the witness theorems -/

/-- A wager of 10 USD at rate 10000 (0.001 btc), still open. -/
def sampleBet : Bet := mkBet "p1" "alice" 10 (1 / 1000) "btc" 10000 0

/-- A wager already settled at multiplier 2. -/
def sampleSettledBet : Bet := settleBet (mkBet "p2" "bob" 5 (1 / 2000) "btc" 10000 0) 2 1000

/-- An ACTIVE round holding the open sample wager. -/
def sampleActiveRound : GameRound :=
  { GameRound.create "r1" 0 2 "seed" [] with status := .active, bets := [sampleBet], totalBets := 10 }

/-- An ACTIVE round holding one open and one settled wager. -/
def sampleMixedRound : GameRound :=
  { GameRound.create "r2" 0 2 "seed" [] with
      status := .active, bets := [sampleBet, sampleSettledBet],
      totalBets := 15, totalCashouts := 10, totalWinners := 1 }

/-- The sample participant, at the default wallet. -/
def samplePlayer : Player := mkPlayer "p1" "alice"

/-- Service state with the active sample round. -/
def sampleState : ServiceState :=
  { currentRound := some sampleActiveRound, players := [samplePlayer], txns := [] }

/-- Service state with a fresh WAITING round. -/
def sampleWaitingState : ServiceState :=
  { currentRound := some (GameRound.create "r1" 0 2 "seed" []),
    players := [samplePlayer], txns := [] }

/-- Service state with a WAITING round and no players yet. -/
def emptyPlayersState : ServiceState :=
  { currentRound := some (GameRound.create "r1" 0 2 "seed" []),
    players := [],
    txns := [] }

/-- Two concurrent cashout requests by the sample participant at 5000ms. -/
def sampleCalls : List CashoutCall := [⟨"alice", 5000⟩, ⟨"alice", 5000⟩]

/-! ## Theorems.  First the supporting lemmas, then one theorem per claim. -/

theorem wordBytes_lt (w : ℕ) : ∀ b ∈ Sha256.wordBytes w, b < 256 := by
  intro b hb
  simp only [Sha256.wordBytes, List.mem_cons, List.mem_singleton,
    List.not_mem_nil, or_false] at hb
  rcases hb with h | h | h | h <;> subst h <;> exact Nat.mod_lt _ (by norm_num)

theorem digestBytes_lt (st : Sha256.Regs) : ∀ b ∈ Sha256.digestBytes st, b < 256 := by
  intro b hb
  simp only [Sha256.digestBytes, List.mem_append] at hb
  rcases hb with ((((((h | h) | h) | h) | h) | h) | h) | h <;> exact wordBytes_lt _ _ h

theorem wAt_lt {l : List ℕ} (hl : ∀ b ∈ l, b < 256) (i : ℕ) : Sha256.wAt l i < 256 := by
  rw [Sha256.wAt, List.getD_eq_getElem?_getD]
  cases hx : l[i]? with
  | none => simp
  | some b => simpa using hl b (List.getElem?_mem hx)

theorem readUInt32BE_lt {l : List ℕ} (hl : ∀ b ∈ l, b < 256) :
    Sha256.readUInt32BE l < 4294967296 := by
  have h0 := wAt_lt hl 0
  have h1 := wAt_lt hl 1
  have h2 := wAt_lt hl 2
  have h3 := wAt_lt hl 3
  rw [Sha256.readUInt32BE]
  omega

theorem ratFloor_eq_floor (q : ℚ) : ratFloor q = ⌊q⌋ := by
  rw [ratFloor, Int.fdiv_eq_ediv _ (by exact_mod_cast q.den_pos.le), Rat.floor_def]

theorem qabs_eq_abs (q : ℚ) : qabs q = |q| := by
  rw [qabs]
  split
  · rw [abs_of_neg (by assumption)]
  · rw [abs_of_nonneg (by linarith [not_lt.mp (by assumption)])]

theorem round4_one_le {q : ℚ} (hq : 1 ≤ q) : 1 ≤ round4 q := by
  rw [round4, ratFloor_eq_floor]
  have h1 : ((10000 : ℤ) : ℚ) ≤ ⌊q * 10000 + 1 / 2⌋ := by
    exact_mod_cast Int.le_floor.mpr (by push_cast; linarith)
  linarith

theorem calculateMultiplier_one_le {t g : ℚ} (ht : 0 ≤ t) (hg : 0 ≤ g) :
    1 ≤ CryptoUtils.calculateMultiplier t g := by
  rw [CryptoUtils.calculateMultiplier]
  exact round4_one_le (by nlinarith)

theorem randomValue_nonneg (seed roundId : String) :
    0 ≤ (CryptoUtils.generateCrashPoint seed roundId).randomValue := by
  rw [CryptoUtils.generateCrashPoint]
  positivity

theorem randomValue_lt_one (seed roundId : String) :
    (CryptoUtils.generateCrashPoint seed roundId).randomValue < 1 := by
  rw [CryptoUtils.generateCrashPoint]
  simp only
  rw [div_lt_one (by norm_num)]
  have h := readUInt32BE_lt (digestBytes_lt (Sha256.sha256
    (Sha256.utf8Bytes (seed ++ "-" ++ roundId))))
  calc (Sha256.readUInt32BE (Sha256.digestBytes (Sha256.sha256
          (Sha256.utf8Bytes (seed ++ "-" ++ roundId)))) : ℚ)
      < ((4294967296 : ℕ) : ℚ) := by exact_mod_cast h
    _ = 2 ^ 32 := by norm_num

theorem one_le_crashPoint (seed roundId : String) :
    1 ≤ (CryptoUtils.generateCrashPoint seed roundId).crashPoint := by
  rw [CryptoUtils.generateCrashPoint]
  exact le_min (le_max_left _ _) (by norm_num [CryptoUtils.maxCrash])

theorem crashPoint_le_hundred (seed roundId : String) :
    (CryptoUtils.generateCrashPoint seed roundId).crashPoint ≤ 100 := by
  have h : (CryptoUtils.generateCrashPoint seed roundId).crashPoint ≤ CryptoUtils.maxCrash := by
    rw [CryptoUtils.generateCrashPoint]
    exact min_le_right _ _
  simpa [CryptoUtils.maxCrash] using h

theorem jsFalsy_some_ne_zero {m : ℚ} (hm : m ≠ 0) : jsFalsy (some m) = false := by
  simp only [jsFalsy, Option.getD_some]
  exact beq_eq_false_iff_ne.mpr hm

theorem betOpenFor_settleBet (pid : String) (b : Bet) {m : ℚ} (hm : m ≠ 0) (now : ℤ) :
    betOpenFor pid (settleBet b m now) = false := by
  simp [betOpenFor, settleBet, jsFalsy_some_ne_zero hm]

theorem openCountFor_nil (pid : String) : openCountFor pid [] = 0 := rfl

theorem openCountFor_cons (pid : String) (b : Bet) (bs : List Bet) :
    openCountFor pid (b :: bs) =
      (if betOpenFor pid b then 1 else 0) + openCountFor pid bs := by
  rw [openCountFor, openCountFor, List.filter_cons]
  split <;> simp [Nat.add_comm]

theorem settleFirst_none_iff (pid : String) (m : ℚ) (now : ℤ) (bs : List Bet) :
    settleFirst pid m now bs = none ↔ openCountFor pid bs = 0 := by
  induction bs with
  | nil => simp [settleFirst, openCountFor_nil]
  | cons b bs ih =>
    rw [settleFirst, openCountFor_cons]
    by_cases hb : betOpenFor pid b
    · simp [hb]
    · rw [if_neg hb, if_neg hb]
      cases hsf : settleFirst pid m now bs with
      | none => simpa [hsf] using ih.mp hsf
      | some pr =>
        obtain ⟨bs2, sb2⟩ := pr
        have hne : openCountFor pid bs ≠ 0 := fun hc => by simp [ih.mpr hc] at hsf
        simp [hne]

theorem find?_betOpenFor_none_iff (pid : String) (bs : List Bet) :
    bs.find? (betOpenFor pid) = none ↔ openCountFor pid bs = 0 := by
  simp [List.find?_eq_none, openCountFor, List.length_eq_zero, List.filter_eq_nil_iff]

theorem settleFirst_count {pid : String} {m : ℚ} {now : ℤ} (hm : m ≠ 0) :
    ∀ {bs bs' : List Bet} {sb : Bet}, settleFirst pid m now bs = some (bs', sb) →
    openCountFor pid bs' + 1 = openCountFor pid bs := by
  intro bs
  induction bs with
  | nil => intro bs' sb h; simp [settleFirst] at h
  | cons b bs ih =>
    intro bs' sb h
    rw [settleFirst] at h
    by_cases hb : betOpenFor pid b
    · rw [if_pos hb] at h
      injection h with h
      injection h with h1 h2
      subst h1
      rw [openCountFor_cons, openCountFor_cons, if_pos hb,
        betOpenFor_settleBet pid b hm now, if_neg (by simp)]
      omega
    · rw [if_neg hb] at h
      cases hsf : settleFirst pid m now bs with
      | none => rw [hsf] at h; cases h
      | some pr =>
        obtain ⟨bs2, sb2⟩ := pr
        rw [hsf] at h
        injection h with h
        injection h with h1 h2
        subst h1
        rw [openCountFor_cons, openCountFor_cons]
        have := ih hsf
        omega

theorem settleFirst_map_usd {pid : String} {m : ℚ} {now : ℤ} :
    ∀ {bs bs' : List Bet} {sb : Bet}, settleFirst pid m now bs = some (bs', sb) →
    bs'.map Bet.usdAmount = bs.map Bet.usdAmount := by
  intro bs
  induction bs with
  | nil => intro bs' sb h; simp [settleFirst] at h
  | cons b bs ih =>
    intro bs' sb h
    rw [settleFirst] at h
    by_cases hb : betOpenFor pid b
    · rw [if_pos hb] at h
      injection h with h
      injection h with h1 h2
      subst h1
      simp [settleBet]
    · rw [if_neg hb] at h
      cases hsf : settleFirst pid m now bs with
      | none => rw [hsf] at h; cases h
      | some pr =>
        obtain ⟨bs2, sb2⟩ := pr
        rw [hsf] at h
        injection h with h
        injection h with h1 h2
        subst h1
        simp [ih hsf]

theorem findPlayer_savePlayer (ps : List Player) (p : Player) :
    findPlayer (savePlayer ps p) p.playerId = some p := by
  induction ps with
  | nil => simp [savePlayer, findPlayer]
  | cons q qs ih =>
    rw [savePlayer]
    by_cases hq : q.playerId == p.playerId
    · rw [if_pos hq]
      simp [findPlayer]
    · rw [if_neg hq]
      simpa [findPlayer, List.find?_cons, hq] using ih

theorem cashoutCredit_eq (st : ServiceState) {pid : String} {p : Player}
    (uname : String) (c : PendingCredit) (hp : findPlayer st.players pid = some p) :
    GameService.cashoutCredit st pid uname c =
      ({ st with players := savePlayer st.players (creditedPlayer p c),
                 txns := st.txns ++ [cashoutTxn pid uname p c] },
       .ok { multiplier := c.multiplier, payoutCrypto := c.payoutCrypto,
             payoutUsd := c.payoutUsd, playerBalance := (creditedPlayer p c).wallet }) := by
  simp only [GameService.cashoutCredit, hp]

theorem cashoutSettle_noOpen (st : ServiceState) (r : GameRound) (pid : String)
    (now : ℤ) (g : ℚ) (hr : st.currentRound = some r) (hact : r.status = .active)
    (hopen : openCountFor pid r.bets = 0) :
    GameService.cashoutSettle st pid now g = (st, .error .noOpenWager) := by
  simp only [GameService.cashoutSettle, hr]
  rw [if_neg (by simp [hact]), (find?_betOpenFor_none_iff pid r.bets).mpr hopen]

theorem cashoutSettle_ok (st : ServiceState) (r : GameRound) (pid : String)
    (now : ℤ) (g : ℚ) (hr : st.currentRound = some r) (hact : r.status = .active)
    (hopen : openCountFor pid r.bets ≠ 0) :
    ∃ r' c,
      GameService.cashoutSettle st pid now g = ({ st with currentRound := some r' }, .ok c) ∧
      r'.status = .active ∧ r'.startTime = r.startTime ∧ r'.roundId = r.roundId ∧
      (CryptoUtils.calculateMultiplier ((now - r.startTime : ℤ) : ℚ) g ≠ 0 →
        openCountFor pid r'.bets + 1 = openCountFor pid r.bets) ∧
      c.multiplier = CryptoUtils.calculateMultiplier ((now - r.startTime : ℤ) : ℚ) g := by
  simp only [GameService.cashoutSettle, hr]
  rw [if_neg (by simp [hact])]
  cases hf : r.bets.find? (betOpenFor pid) with
  | none => exact absurd ((find?_betOpenFor_none_iff pid r.bets).mp hf) hopen
  | some activeBet =>
    simp only [GameRound.processCashout]
    cases hsf : settleFirst pid
        (CryptoUtils.calculateMultiplier ((now - r.startTime : ℤ) : ℚ) g) now r.bets with
    | none => exact absurd ((settleFirst_none_iff _ _ _ _).mp hsf) hopen
    | some pr =>
      obtain ⟨bets', sb⟩ := pr
      refine ⟨_, _, rfl, hact, rfl, rfl, ?_, rfl⟩
      intro hm
      simpa using settleFirst_count hm hsf

theorem getElem?_set_self {α : Type} (l : List α) (i : ℕ) (a : α) (h : i < l.length) :
    (l.set i a)[i]? = some a := by
  rw [List.getElem?_set_self']
  simp [List.getElem?_eq_getElem h]

theorem raceInv_init (pid : String) (g : ℚ) (calls : List CashoutCall)
    (st0 : ServiceState) (p0 : Player) :
    raceInv pid g calls st0 p0 (st0, List.replicate calls.length CallPhase.idle) := by
  exact ⟨by simp, Or.inl ⟨rfl, fun ph hph => List.eq_of_mem_replicate hph⟩⟩

theorem raceInv_step {pid : String} {g : ℚ} {calls : List CashoutCall}
    {st0 : ServiceState} {r0 : GameRound} {p0 : Player}
    (hr : st0.currentRound = some r0) (hact : r0.status = .active)
    (hcount : openCountFor pid r0.bets = 1)
    (hp : findPlayer st0.players pid = some p0)
    (hg : 0 ≤ g) (hnow : ∀ call ∈ calls, r0.startTime ≤ call.now)
    {s : ServiceState × List CallPhase} (i : ℕ)
    (hinv : raceInv pid g calls st0 p0 s) :
    raceInv pid g calls st0 p0 (raceStep pid g calls s i) := by
  obtain ⟨hlen, hA | hB⟩ := hinv
  · -- state A: nobody has run yet
    obtain ⟨hA1, hA2⟩ := hA
    cases hph : s.2[i]? with
    | none =>
      have hstep : raceStep pid g calls s i = s := by
        simp only [raceStep, hph]
      rw [hstep]
      exact ⟨hlen, Or.inl ⟨hA1, hA2⟩⟩
    | some ph =>
      have hidle : ph = CallPhase.idle := hA2 ph (List.getElem?_mem hph)
      subst hidle
      cases hcall : calls[i]? with
      | none =>
        have hstep : raceStep pid g calls s i = s := by
          simp only [raceStep, hph, hcall]
        rw [hstep]
        exact ⟨hlen, Or.inl ⟨hA1, hA2⟩⟩
      | some call =>
        -- the first settle step: it wins the open wager
        have hm1 : 1 ≤ CryptoUtils.calculateMultiplier ((call.now - r0.startTime : ℤ) : ℚ) g := by
          refine calculateMultiplier_one_le ?_ hg
          have := hnow call (List.getElem?_mem hcall)
          push_cast
          linarith [(by exact_mod_cast this : (r0.startTime : ℚ) ≤ (call.now : ℚ))]
        have hm0 : CryptoUtils.calculateMultiplier ((call.now - r0.startTime : ℤ) : ℚ) g ≠ 0 := by
          intro h0
          rw [h0] at hm1
          linarith
        obtain ⟨r', c, heq, hact', hstart, hrid, hcnt, hmul⟩ :=
          cashoutSettle_ok st0 r0 pid call.now g hr hact (by omega)
        have hcnt0 : openCountFor pid r'.bets = 0 := by
          have := hcnt hm0
          omega
        have hstep : raceStep pid g calls s i =
            ({ st0 with currentRound := some r' }, s.2.set i (CallPhase.pendingCredit c)) := by
          simp only [raceStep, hph, hcall, hA1, heq]
        rw [hstep]
        refine ⟨by simp [hlen], Or.inr ⟨i, call, r', c, hcall, heq, hact', hcnt0, ?_, ?_⟩⟩
        · intro j hj ph hj2
          rw [List.getElem?_set_ne (fun h => hj h.symm)] at hj2
          exact Or.inl (hA2 ph (List.getElem?_mem hj2))
        · refine Or.inl ⟨?_, rfl⟩
          exact getElem?_set_self _ _ _ (List.getElem?_eq_some.mp hph).1
  · -- state B: call k has won the settlement
    obtain ⟨k, call, r1, c, hcall, heq, hact1, hcnt0, hothers, hkOr⟩ := hB
    have hcur : s.1.currentRound = some r1 := by
      rcases hkOr with ⟨hk, hs1⟩ | ⟨hk, hs1⟩ <;> rw [hs1]
    cases hph : s.2[i]? with
    | none =>
      have hstep : raceStep pid g calls s i = s := by
        simp only [raceStep, hph]
      rw [hstep]
      exact ⟨hlen, Or.inr ⟨k, call, r1, c, hcall, heq, hact1, hcnt0, hothers, hkOr⟩⟩
    | some ph =>
      by_cases hik : i = k
      · subst hik
        rcases hkOr with ⟨hk, hs1⟩ | ⟨hk, hs1⟩
        · -- the winner runs its credit step
          have hphk : ph = CallPhase.pendingCredit c := by
            rw [hph] at hk
            injection hk
          subst hphk
          have hfp : findPlayer s.1.players pid = some p0 := by
            rw [hs1]
            exact hp
          have hcred := cashoutCredit_eq s.1 call.username c hfp
          have hstep : raceStep pid g calls s i =
              ({ s.1 with
                  players := savePlayer s.1.players (creditedPlayer p0 c),
                  txns := s.1.txns ++ [cashoutTxn pid call.username p0 c] },
               s.2.set i (CallPhase.finished
                 { multiplier := c.multiplier, payoutCrypto := c.payoutCrypto,
                   payoutUsd := c.payoutUsd,
                   playerBalance := (creditedPlayer p0 c).wallet })) := by
            simp only [raceStep, hph, hcall, hcred]
          rw [hstep]
          refine ⟨by simp [hlen], Or.inr ⟨i, call, r1, c, hcall, heq, hact1, hcnt0, ?_, ?_⟩⟩
          · intro j hj ph2 hj2
            rw [List.getElem?_set_ne (fun h => hj h.symm)] at hj2
            exact hothers j hj ph2 hj2
          · refine Or.inr ⟨?_, ?_⟩
            · exact getElem?_set_self _ _ _ (List.getElem?_eq_some.mp hph).1
            · rw [hs1]
        · -- the winner already finished: no-op
          have hphk : ph = CallPhase.finished
              { multiplier := c.multiplier, payoutCrypto := c.payoutCrypto,
                payoutUsd := c.payoutUsd, playerBalance := (creditedPlayer p0 c).wallet } := by
            rw [hph] at hk
            injection hk
          subst hphk
          have hstep : raceStep pid g calls s i = s := by
            simp only [raceStep, hph]
          rw [hstep]
          exact ⟨hlen, Or.inr ⟨i, call, r1, c, hcall, heq, hact1, hcnt0, hothers, Or.inr ⟨hk, hs1⟩⟩⟩
      · -- a loser steps
        rcases hothers i hik ph hph with hidle | hfail
        · subst hidle
          cases hcall2 : calls[i]? with
          | none =>
            have hstep : raceStep pid g calls s i = s := by
              simp only [raceStep, hph, hcall2]
            rw [hstep]
            exact ⟨hlen, Or.inr ⟨k, call, r1, c, hcall, heq, hact1, hcnt0, hothers, hkOr⟩⟩
          | some calli =>
            have hno := cashoutSettle_noOpen s.1 r1 pid calli.now g hcur hact1 hcnt0
            have hstep : raceStep pid g calls s i =
                (s.1, s.2.set i (CallPhase.failed .noOpenWager)) := by
              simp only [raceStep, hph, hcall2, hno]
            rw [hstep]
            refine ⟨by simp [hlen], Or.inr ⟨k, call, r1, c, hcall, heq, hact1, hcnt0, ?_, ?_⟩⟩
            · intro j hj ph2 hj2
              by_cases hji : j = i
              · subst hji
                rw [getElem?_set_self _ _ _ (List.getElem?_eq_some.mp hph).1] at hj2
                injection hj2 with hj2
                exact Or.inr hj2.symm
              · rw [List.getElem?_set_ne (fun h => hji h.symm)] at hj2
                exact hothers j hj ph2 hj2
            · rcases hkOr with ⟨hk, hs1⟩ | ⟨hk, hs1⟩
              · exact Or.inl ⟨by rw [List.getElem?_set_ne hik]; exact hk, hs1⟩
              · exact Or.inr ⟨by rw [List.getElem?_set_ne hik]; exact hk, hs1⟩
        · subst hfail
          have hstep : raceStep pid g calls s i = s := by
            simp only [raceStep, hph]
          rw [hstep]
          exact ⟨hlen, Or.inr ⟨k, call, r1, c, hcall, heq, hact1, hcnt0, hothers, hkOr⟩⟩

theorem raceInv_run {pid : String} {g : ℚ} {calls : List CashoutCall}
    {st0 : ServiceState} {r0 : GameRound} {p0 : Player}
    (hr : st0.currentRound = some r0) (hact : r0.status = .active)
    (hcount : openCountFor pid r0.bets = 1)
    (hp : findPlayer st0.players pid = some p0)
    (hg : 0 ≤ g) (hnow : ∀ call ∈ calls, r0.startTime ≤ call.now)
    (sched : List ℕ) :
    raceInv pid g calls st0 p0
      (runRace pid g calls (st0, List.replicate calls.length CallPhase.idle) sched) := by
  rw [runRace]
  have hstep : ∀ (sched' : List ℕ) (s : ServiceState × List CallPhase),
      raceInv pid g calls st0 p0 s →
      raceInv pid g calls st0 p0 (sched'.foldl (raceStep pid g calls) s) := by
    intro sched'
    induction sched' with
    | nil => exact fun s h => h
    | cons i rest ih =>
      intro s h
      exact ih _ (raceInv_step hr hact hcount hp hg hnow i h)
  exact hstep sched _ (raceInv_init pid g calls st0 p0)

/-- C1: for every ACTIVE round with exactly one open wager for a participant,
any interleaving of N concurrent withdrawal calls for that participant (each
issued at or after round start, with a non-negative growth factor) ends with
exactly one call finished successfully, all other calls failed with
NoOpenWager, and the participant's stored balance credited exactly once, by
the single winning settlement. -/
theorem C1_exactly_once_settlement
    (st0 : ServiceState) (r0 : GameRound) (p0 : Player) (pid : String) (g : ℚ)
    (calls : List CashoutCall) (sched : List ℕ)
    (hr : st0.currentRound = some r0) (hact : r0.status = .active)
    (hcount : openCountFor pid r0.bets = 1)
    (hp : findPlayer st0.players pid = some p0)
    (hg : 0 ≤ g) (hnow : ∀ call ∈ calls, r0.startTime ≤ call.now)
    (hne : calls ≠ [])
    (hdone : allSettled
      (runRace pid g calls (st0, List.replicate calls.length CallPhase.idle) sched).2) :
    ∃ k : ℕ, ∃ call : CashoutCall, ∃ c : PendingCredit,
      calls[k]? = some call ∧
      (runRace pid g calls (st0, List.replicate calls.length CallPhase.idle) sched).2[k]? =
        some (CallPhase.finished
          { multiplier := c.multiplier, payoutCrypto := c.payoutCrypto,
            payoutUsd := c.payoutUsd, playerBalance := (creditedPlayer p0 c).wallet }) ∧
      (∀ j, j ≠ k → ∀ ph,
        (runRace pid g calls (st0, List.replicate calls.length CallPhase.idle) sched).2[j]? =
          some ph → ph = CallPhase.failed .noOpenWager) ∧
      (runRace pid g calls (st0, List.replicate calls.length CallPhase.idle) sched).1.players =
        savePlayer st0.players (creditedPlayer p0 c) := by
  obtain ⟨hlen, hA | hB⟩ := raceInv_run hr hact hcount hp hg hnow sched
  · -- impossible: with at least one call, some phase would still be idle
    exfalso
    obtain ⟨hA1, hA2⟩ := hA
    have hpos : 0 < (runRace pid g calls
        (st0, List.replicate calls.length CallPhase.idle) sched).2.length := by
      rw [hlen]
      cases calls with
      | nil => exact absurd rfl hne
      | cons a l => simp
    obtain ⟨ph0, hph0⟩ : ∃ ph, (runRace pid g calls
        (st0, List.replicate calls.length CallPhase.idle) sched).2[0]? = some ph := by
      rw [List.getElem?_eq_getElem hpos]
      exact ⟨_, rfl⟩
    have hidle := hA2 ph0 (List.getElem?_mem hph0)
    rcases hdone ph0 (List.getElem?_mem hph0) with ⟨e, he⟩ | ⟨res, hres⟩
    · rw [hidle] at he
      cases he
    · rw [hidle] at hres
      cases hres
  · obtain ⟨k, call, r1, c, hcall, heq, hact1, hcnt0, hothers, hkOr⟩ := hB
    rcases hkOr with ⟨hk, hs1⟩ | ⟨hk, hs1⟩
    · -- impossible: the winner would still be pending its credit
      exfalso
      rcases hdone _ (List.getElem?_mem hk) with ⟨e, he⟩ | ⟨res, hres⟩
      · cases he
      · cases hres
    · refine ⟨k, call, c, hcall, hk, ?_, by rw [hs1]⟩
      intro j hj ph hph
      rcases hothers j hj ph hph with hidle | hfail
      · exfalso
        rcases hdone ph (List.getElem?_mem hph) with ⟨e, he⟩ | ⟨res, hres⟩
        · rw [hidle] at he
          cases he
        · rw [hidle] at hres
          cases hres
      · exact hfail

theorem sample_openCount : openCountFor "p1" sampleActiveRound.bets = 1 := by
  simp [openCountFor, sampleActiveRound, sampleBet, mkBet, betOpenFor, jsFalsy,
    GameRound.create, List.filter]

theorem sample_findPlayer : findPlayer sampleState.players "p1" = some samplePlayer := by
  simp [findPlayer, sampleState, samplePlayer, mkPlayer, List.find?]

theorem C1_exactly_once_settlement_witness :
    openCountFor "p1" sampleActiveRound.bets = 1 ∧
    (∃ k : ℕ, ∃ call : CashoutCall, ∃ c : PendingCredit,
      sampleCalls[k]? = some call ∧
      (runRace "p1" (1 / 100) sampleCalls
          (sampleState, List.replicate sampleCalls.length CallPhase.idle) [0, 1, 0]).2[k]? =
        some (CallPhase.finished
          { multiplier := c.multiplier, payoutCrypto := c.payoutCrypto,
            payoutUsd := c.payoutUsd, playerBalance := (creditedPlayer samplePlayer c).wallet }) ∧
      (∀ j, j ≠ k → ∀ ph,
        (runRace "p1" (1 / 100) sampleCalls
            (sampleState, List.replicate sampleCalls.length CallPhase.idle) [0, 1, 0]).2[j]? =
          some ph → ph = CallPhase.failed .noOpenWager) ∧
      (runRace "p1" (1 / 100) sampleCalls
          (sampleState, List.replicate sampleCalls.length CallPhase.idle) [0, 1, 0]).1.players =
        savePlayer sampleState.players (creditedPlayer samplePlayer c)) := by
  have hm1 : 1 ≤ CryptoUtils.calculateMultiplier ((5000 - sampleActiveRound.startTime : ℤ) : ℚ) (1 / 100) := by
    refine calculateMultiplier_one_le ?_ (by norm_num)
    norm_num [sampleActiveRound, GameRound.create]
  have hm0 : CryptoUtils.calculateMultiplier ((5000 - sampleActiveRound.startTime : ℤ) : ℚ) (1 / 100) ≠ 0 := by
    intro h0
    rw [h0] at hm1
    linarith
  have hdone : allSettled
      (runRace "p1" (1 / 100) sampleCalls
        (sampleState, List.replicate sampleCalls.length CallPhase.idle) [0, 1, 0]).2 := by
    obtain ⟨r', c, heq, hact', hstart, hrid, hcnt, hmul⟩ :=
      cashoutSettle_ok sampleState sampleActiveRound "p1" 5000 (1 / 100)
        rfl rfl (by rw [sample_openCount]; omega)
    have hcnt0 : openCountFor "p1" r'.bets = 0 := by
      have := hcnt hm0
      rw [sample_openCount] at this
      omega
    have h1 : raceStep "p1" (1 / 100) sampleCalls
        (sampleState, [CallPhase.idle, CallPhase.idle]) 0 =
        ({ sampleState with currentRound := some r' },
         [CallPhase.pendingCredit c, CallPhase.idle]) := by
      simp only [raceStep, sampleCalls, List.getElem?_cons_zero, heq, List.set]
    have hno := cashoutSettle_noOpen { sampleState with currentRound := some r' } r'
      "p1" 5000 (1 / 100) rfl hact' hcnt0
    have h2 : raceStep "p1" (1 / 100) sampleCalls
        ({ sampleState with currentRound := some r' },
         [CallPhase.pendingCredit c, CallPhase.idle]) 1 =
        ({ sampleState with currentRound := some r' },
         [CallPhase.pendingCredit c, CallPhase.failed .noOpenWager]) := by
      simp only [raceStep, sampleCalls, List.getElem?_cons_succ, List.getElem?_cons_zero,
        hno, List.set]
    have hfp : findPlayer ({ sampleState with currentRound := some r' }).players "p1" =
        some samplePlayer := sample_findPlayer
    have hcred := cashoutCredit_eq { sampleState with currentRound := some r' }
      "alice" c hfp
    have h3 : raceStep "p1" (1 / 100) sampleCalls
        ({ sampleState with currentRound := some r' },
         [CallPhase.pendingCredit c, CallPhase.failed .noOpenWager]) 0 =
        ({ { sampleState with currentRound := some r' } with
            players := savePlayer ({ sampleState with currentRound := some r' }).players
              (creditedPlayer samplePlayer c),
            txns := ({ sampleState with currentRound := some r' }).txns ++
              [cashoutTxn "p1" "alice" samplePlayer c] },
         [CallPhase.finished
            { multiplier := c.multiplier, payoutCrypto := c.payoutCrypto,
              payoutUsd := c.payoutUsd,
              playerBalance := (creditedPlayer samplePlayer c).wallet },
          CallPhase.failed .noOpenWager]) := by
      simp only [raceStep, sampleCalls, List.getElem?_cons_zero, hcred, List.set]
    have hrun : runRace "p1" (1 / 100) sampleCalls
        (sampleState, List.replicate sampleCalls.length CallPhase.idle) [0, 1, 0] =
        ({ { sampleState with currentRound := some r' } with
            players := savePlayer ({ sampleState with currentRound := some r' }).players
              (creditedPlayer samplePlayer c),
            txns := ({ sampleState with currentRound := some r' }).txns ++
              [cashoutTxn "p1" "alice" samplePlayer c] },
         [CallPhase.finished
            { multiplier := c.multiplier, payoutCrypto := c.payoutCrypto,
              payoutUsd := c.payoutUsd,
              playerBalance := (creditedPlayer samplePlayer c).wallet },
          CallPhase.failed .noOpenWager]) := by
      have hrep : List.replicate sampleCalls.length CallPhase.idle =
          [CallPhase.idle, CallPhase.idle] := by
        simp [sampleCalls, List.replicate]
      rw [runRace, hrep]
      simp only [List.foldl]
      rw [h1, h2, h3]
    rw [hrun]
    intro ph hph
    rcases List.mem_cons.mp hph with h | h
    · exact Or.inr ⟨_, h⟩
    · rcases List.mem_cons.mp h with h2 | h2
      · exact Or.inl ⟨_, h2⟩
      · simp at h2
  exact ⟨sample_openCount,
    C1_exactly_once_settlement sampleState sampleActiveRound samplePlayer "p1" (1 / 100)
      sampleCalls [0, 1, 0] rfl rfl sample_openCount sample_findPlayer (by norm_num)
      (by intro call hcall
          rcases List.mem_cons.mp hcall with h | h
          · rw [h]
            norm_num [sampleActiveRound, GameRound.create]
          · rcases List.mem_cons.mp h with h2 | h2
            · rw [h2]
              norm_num [sampleActiveRound, GameRound.create]
            · simp at h2)
      (by simp [sampleCalls]) hdone⟩

/-- C2: in a sequential run against an ACTIVE round holding exactly one open
wager for the participant, a first withdrawal (issued at or after round
start, non-negative growth factor) succeeds, and an immediately following
withdrawal by the same participant returns NoOpenWager and leaves the whole
service state — round, bets, aggregates, balances, transactions — exactly as
the first call left it. -/
theorem C2_second_withdrawal_rejected
    (st0 : ServiceState) (r0 : GameRound) (p0 : Player) (pid uname1 uname2 : String)
    (now1 now2 : ℤ) (g : ℚ)
    (hr : st0.currentRound = some r0) (hact : r0.status = .active)
    (hcount : openCountFor pid r0.bets = 1)
    (hp : findPlayer st0.players pid = some p0)
    (hg : 0 ≤ g) (hn1 : r0.startTime ≤ now1) :
    ∃ st1 res1,
      GameService.processCashout st0 pid uname1 now1 g = (st1, .ok res1) ∧
      GameService.processCashout st1 pid uname2 now2 g = (st1, .error .noOpenWager) := by
  have hm1 : 1 ≤ CryptoUtils.calculateMultiplier ((now1 - r0.startTime : ℤ) : ℚ) g := by
    refine calculateMultiplier_one_le ?_ hg
    push_cast
    linarith [(by exact_mod_cast hn1 : (r0.startTime : ℚ) ≤ (now1 : ℚ))]
  have hm0 : CryptoUtils.calculateMultiplier ((now1 - r0.startTime : ℤ) : ℚ) g ≠ 0 := by
    intro h0
    rw [h0] at hm1
    linarith
  obtain ⟨r', c, heq, hact', hstart, hrid, hcnt, hmul⟩ :=
    cashoutSettle_ok st0 r0 pid now1 g hr hact (by omega)
  have hcnt0 : openCountFor pid r'.bets = 0 := by
    have := hcnt hm0
    omega
  have hfp : findPlayer ({ st0 with currentRound := some r' }).players pid = some p0 := hp
  have hcred := cashoutCredit_eq { st0 with currentRound := some r' } uname1 c hfp
  refine ⟨{ st0 with
             currentRound := some r',
             players := savePlayer st0.players (creditedPlayer p0 c),
             txns := st0.txns ++ [cashoutTxn pid uname1 p0 c] },
          { multiplier := c.multiplier, payoutCrypto := c.payoutCrypto,
            payoutUsd := c.payoutUsd, playerBalance := (creditedPlayer p0 c).wallet },
          ?_, ?_⟩
  · simp only [GameService.processCashout, heq, hcred]
  · have hno := cashoutSettle_noOpen
      { st0 with
          currentRound := some r',
          players := savePlayer st0.players (creditedPlayer p0 c),
          txns := st0.txns ++ [cashoutTxn pid uname1 p0 c] } r'
      pid now2 g rfl hact' hcnt0
    simp only [GameService.processCashout, hno]

theorem C2_second_withdrawal_rejected_witness :
    openCountFor "p1" sampleActiveRound.bets = 1 ∧
    (∃ st1 res1,
      GameService.processCashout sampleState "p1" "alice" 5000 (1 / 100) = (st1, .ok res1) ∧
      GameService.processCashout st1 "p1" "alice" 6000 (1 / 100) =
        (st1, .error .noOpenWager)) :=
  ⟨sample_openCount,
   C2_second_withdrawal_rejected sampleState sampleActiveRound samplePlayer "p1" "alice"
     "alice" 5000 6000 (1 / 100) rfl rfl sample_openCount sample_findPlayer (by norm_num)
     (by norm_num [sampleActiveRound, GameRound.create])⟩

/-- C4: finalizeRound sets status CRASHED, stamps endTime, leaves every bet
record untouched (so a still-open wager keeps its empty settlement record and
isWinner = false — it is a loss, never a payout), leaves totalCashouts as it
was, counts the still-open wagers as totalLosers, and computes houseProfit =
totalBets - totalCashouts.  Hypotheses: no wager was settled at the JS-falsy
multiplier 0 (the source counts such a wager as open again), and open wagers
carry the schema default isWinner = false. -/
theorem C4_finalizeRound_accounting (r : GameRound) (now : ℤ)
    (hz : ∀ b ∈ r.bets, b.cashoutMultiplier ≠ some 0)
    (hw : ∀ b ∈ r.bets, b.cashoutMultiplier = none → b.isWinner = false) :
    (r.finalizeRound now).status = .crashed ∧
    (r.finalizeRound now).endTime = some now ∧
    (r.finalizeRound now).bets = r.bets ∧
    (r.finalizeRound now).totalCashouts = r.totalCashouts ∧
    (r.finalizeRound now).totalLosers =
      (r.bets.filter (fun b => b.cashoutMultiplier.isNone)).length ∧
    (r.finalizeRound now).houseProfit = r.totalBets - r.totalCashouts ∧
    (∀ b ∈ (r.finalizeRound now).bets, b.cashoutMultiplier = none → b.isWinner = false) := by
  refine ⟨rfl, rfl, rfl, rfl, ?_, rfl, ?_⟩
  · show (r.bets.filter (fun b => jsFalsy b.cashoutMultiplier)).length = _
    congr 1
    refine List.filter_congr ?_
    intro b hb
    cases hcm : b.cashoutMultiplier with
    | none => simp [jsFalsy]
    | some m =>
      have hm : m ≠ 0 := by
        intro h0
        exact hz b hb (by rw [hcm, h0])
      simp [jsFalsy_some_ne_zero hm]
  · intro b hb hbn
    exact hw b hb hbn

theorem C4_finalizeRound_accounting_witness :
    (∀ b ∈ sampleMixedRound.bets, b.cashoutMultiplier ≠ some 0) ∧
    (sampleMixedRound.finalizeRound 2000).status = .crashed ∧
    (sampleMixedRound.finalizeRound 2000).endTime = some 2000 ∧
    (sampleMixedRound.finalizeRound 2000).bets = sampleMixedRound.bets ∧
    (sampleMixedRound.finalizeRound 2000).totalCashouts = sampleMixedRound.totalCashouts ∧
    (sampleMixedRound.finalizeRound 2000).totalLosers =
      (sampleMixedRound.bets.filter (fun b => b.cashoutMultiplier.isNone)).length ∧
    (sampleMixedRound.finalizeRound 2000).houseProfit =
      sampleMixedRound.totalBets - sampleMixedRound.totalCashouts ∧
    (∀ b ∈ (sampleMixedRound.finalizeRound 2000).bets, b.cashoutMultiplier = none →
      b.isWinner = false) := by
  have hz : ∀ b ∈ sampleMixedRound.bets, b.cashoutMultiplier ≠ some 0 := by
    intro b hb
    simp only [sampleMixedRound, GameRound.create, sampleBet, sampleSettledBet,
      settleBet, mkBet, List.mem_cons, List.not_mem_nil, or_false] at hb
    rcases hb with h | h <;> subst h <;> simp
  have hw : ∀ b ∈ sampleMixedRound.bets, b.cashoutMultiplier = none → b.isWinner = false := by
    intro b hb
    simp only [sampleMixedRound, GameRound.create, sampleBet, sampleSettledBet,
      settleBet, mkBet, List.mem_cons, List.not_mem_nil, or_false] at hb
    rcases hb with h | h <;> subst h <;> simp
  exact ⟨hz, C4_finalizeRound_accounting sampleMixedRound 2000 hz hw⟩

/-- C9: a round's totalBets aggregate always equals the sum of usdAmount over
its bets: it holds for a freshly created round and is preserved by addBet, by
every successful processCashout, and by finalizeRound. -/
theorem C9_totalBets_invariant :
    (∀ (roundId : String) (startTime : ℤ) (crashPoint : ℚ) (seed : String)
      (hash : List ℕ),
      totalBetsInvariant (GameRound.create roundId startTime crashPoint seed hash)) ∧
    (∀ (r : GameRound) (b : Bet),
      totalBetsInvariant r → totalBetsInvariant (r.addBet b)) ∧
    (∀ (r r' : GameRound) (pid : String) (m : ℚ) (now : ℤ) (sb : Bet),
      r.processCashout pid m now = .ok (r', sb) →
      totalBetsInvariant r → totalBetsInvariant r') ∧
    (∀ (r : GameRound) (now : ℤ),
      totalBetsInvariant r → totalBetsInvariant (r.finalizeRound now)) := by
  refine ⟨?_, ?_, ?_, ?_⟩
  · intro roundId startTime crashPoint seed hash
    simp [totalBetsInvariant, GameRound.create]
  · intro r b h
    simp [totalBetsInvariant, GameRound.addBet]
    exact h
  · intro r r' pid m now sb hok h
    rw [GameRound.processCashout] at hok
    cases hsf : settleFirst pid m now r.bets with
    | none =>
      rw [hsf] at hok
      cases hok
    | some pr =>
      obtain ⟨bets', sb2⟩ := pr
      rw [hsf] at hok
      injection hok with hok
      injection hok with h1 h2
      rw [totalBetsInvariant] at h ⊢
      rw [← h1]
      simpa [settleFirst_map_usd hsf] using h
  · intro r now h
    simpa [totalBetsInvariant, GameRound.finalizeRound] using h

theorem C9_totalBets_invariant_witness :
    totalBetsInvariant (GameRound.create "r1" 0 2 "seed" []) ∧
    totalBetsInvariant ((GameRound.create "r1" 0 2 "seed" []).addBet sampleBet) ∧
    (∃ r' sb, sampleActiveRound.processCashout "p1" (21 / 20) 5000 = .ok (r', sb) ∧
      totalBetsInvariant r') ∧
    totalBetsInvariant (sampleActiveRound.finalizeRound 10000) := by
  have hInv : totalBetsInvariant sampleActiveRound := by
    simp [totalBetsInvariant, sampleActiveRound, sampleBet, mkBet, GameRound.create]
  have hsf : settleFirst "p1" (21 / 20) 5000 sampleActiveRound.bets =
      some ([settleBet sampleBet (21 / 20) 5000], settleBet sampleBet (21 / 20) 5000) := by
    simp [sampleActiveRound, GameRound.create, settleFirst, betOpenFor, jsFalsy,
      sampleBet, mkBet]
  have hok : sampleActiveRound.processCashout "p1" (21 / 20) 5000 =
      .ok ({ sampleActiveRound with
              bets := [settleBet sampleBet (21 / 20) 5000],
              totalCashouts := sampleActiveRound.totalCashouts +
                ((settleBet sampleBet (21 / 20) 5000).cashoutUsdAmount.getD 0),
              totalWinners := sampleActiveRound.totalWinners + 1 },
            settleBet sampleBet (21 / 20) 5000) := by
    simp only [GameRound.processCashout, hsf]
  refine ⟨(C9_totalBets_invariant.1) "r1" 0 2 "seed" [],
    (C9_totalBets_invariant.2.1) _ sampleBet ?_,
    ⟨_, _, hok, (C9_totalBets_invariant.2.2.1) _ _ "p1" (21 / 20) 5000 _ hok hInv⟩,
    (C9_totalBets_invariant.2.2.2) _ 10000 hInv⟩
  simp [totalBetsInvariant, GameRound.create]

/-- C5: a wager placement whose stake exceeds the participant's available USD
balance — the request otherwise valid (positive stake, supported currency,
WAITING round, positive price) — fails with InsufficientBalance before any
mutation: the returned state is exactly the input state, for every
persistence oracle. -/
theorem C5_insufficient_balance
    (st : ServiceState) (r : GameRound) (o : FaultOracle) (pid uname : String)
    (usd : ℚ) (cur : String) (price : ℚ) (now : ℤ)
    (hr : st.currentRound = some r) (hwait : r.status = .waiting)
    (husd : 0 < usd) (hcur : CryptoUtils.isValidCurrency cur = true)
    (hprice : 0 < price)
    (hbal : ((findPlayer st.players pid).getD (mkPlayer pid uname)).wallet.usd < usd) :
    GameService.placeBet st o pid uname usd cur (some price) now =
      (st, .error .insufficientBalance) := by
  have hconv : CryptoUtils.usdToCrypto usd price = some (round8 (usd / price)) := by
    rw [CryptoUtils.usdToCrypto, if_neg]
    push_neg
    exact ⟨husd, hprice⟩
  simp only [GameService.placeBet, hr, hconv]
  rw [if_neg (not_le.mpr husd), if_neg (by simp [hcur]), if_neg (by simp [hwait]),
    if_neg (not_le.mpr hprice), if_pos hbal]

theorem C5_insufficient_balance_witness :
    samplePlayer.wallet.usd < 2000 ∧
    GameService.placeBet sampleWaitingState allWritesOk "p1" "alice" 2000 "btc"
      (some 10000) 0 = (sampleWaitingState, .error .insufficientBalance) := by
  have hbal : ((findPlayer sampleWaitingState.players "p1").getD
      (mkPlayer "p1" "alice")).wallet.usd < 2000 := by
    simp only [findPlayer, sampleWaitingState, samplePlayer, mkPlayer, List.find?]
    norm_num
  refine ⟨by norm_num [samplePlayer, mkPlayer], ?_⟩
  exact C5_insufficient_balance sampleWaitingState (GameRound.create "r1" 0 2 "seed" [])
    allWritesOk "p1" "alice" 2000 "btc" 10000 0 rfl rfl (by norm_num)
    (by simp [CryptoUtils.isValidCurrency, lowerStr, lowerChar]) (by norm_num) hbal

theorem placeBet_ok
    (st : ServiceState) (r : GameRound) (pid uname : String)
    (usd : ℚ) (cur : String) (price : ℚ) (now : ℤ)
    (hr : st.currentRound = some r) (hwait : r.status = .waiting)
    (husd : 0 < usd) (hcur : CryptoUtils.isValidCurrency cur = true)
    (hprice : 0 < price)
    (hbal : usd ≤ ((findPlayer st.players pid).getD (mkPlayer pid uname)).wallet.usd) :
    GameService.placeBet st allWritesOk pid uname usd cur (some price) now =
      ({ st with
          currentRound := some (r.addBet (mkBet pid uname usd (round8 (usd / price))
            (lowerStr cur) price now)),
          players := savePlayer
            (savePlayer st.players
              (((findPlayer st.players pid).getD (mkPlayer pid uname)).updateWallet "usd" (-usd)))
            { ((findPlayer st.players pid).getD (mkPlayer pid uname)).updateWallet "usd" (-usd) with
                totalBets := (((findPlayer st.players pid).getD (mkPlayer pid uname)).updateWallet
                  "usd" (-usd)).totalBets + usd },
          txns := st.txns ++ [betTxn pid uname usd (round8 (usd / price)) price
            (r.addBet (mkBet pid uname usd (round8 (usd / price)) (lowerStr cur) price now)).roundId
            (lowerStr cur)
            (((findPlayer st.players pid).getD (mkPlayer pid uname)).updateWallet "usd" (-usd))] },
       .ok { betData := mkBet pid uname usd (round8 (usd / price)) (lowerStr cur) price now,
             playerBalance := (((findPlayer st.players pid).getD (mkPlayer pid uname)).updateWallet
               "usd" (-usd)).wallet }) := by
  have hconv : CryptoUtils.usdToCrypto usd price = some (round8 (usd / price)) := by
    rw [CryptoUtils.usdToCrypto, if_neg]
    push_neg
    exact ⟨husd, hprice⟩
  simp only [GameService.placeBet, hr, hconv, allWritesOk]
  rw [if_neg (not_le.mpr husd), if_neg (by simp [hcur]), if_neg (by simp [hwait]),
    if_neg (not_le.mpr hprice), if_neg (not_lt.mpr hbal)]
  simp

/-- C10: a player account created on first contact starts from the schema
default wallet of exactly 1000 USD, 0 BTC and 0 ETH: the wallet-create route
stores precisely that default, and a first-contact placeBet creates the
account at the default and debits the stake from the 1000 USD. -/
theorem C10_starting_balance
    (st : ServiceState) (r : GameRound) (pid uname cur : String)
    (usd price : ℚ) (now : ℤ)
    (hfree : st.players.find? (fun p => p.playerId == pid || p.username == uname) = none)
    (hnf : findPlayer st.players pid = none)
    (hr : st.currentRound = some r) (hwait : r.status = .waiting)
    (husd : 0 < usd) (husd2 : usd ≤ 1000)
    (hcur : CryptoUtils.isValidCurrency cur = true) (hprice : 0 < price) :
    (walletCreate st pid uname =
      ({ st with players := savePlayer st.players (mkPlayer pid uname) },
       .ok (mkPlayer pid uname)) ∧
     (mkPlayer pid uname).wallet = { btc := 0, eth := 0, usd := 1000 }) ∧
    (∃ st' receipt,
      GameService.placeBet st allWritesOk pid uname usd cur (some price) now =
        (st', .ok receipt) ∧
      receipt.playerBalance = { btc := 0, eth := 0, usd := 1000 - usd } ∧
      ∃ p', findPlayer st'.players pid = some p' ∧
        p'.wallet = { btc := 0, eth := 0, usd := 1000 - usd }) := by
  have hupd : (mkPlayer pid uname).updateWallet "usd" (-usd) =
      { mkPlayer pid uname with wallet := { btc := 0, eth := 0, usd := 1000 - usd } } := by
    simp [Player.updateWallet, mkPlayer, sub_eq_add_neg]
  constructor
  · constructor
    · rw [walletCreate, if_neg (by simp [hfree])]
    · rfl
  · have hbal : usd ≤ ((findPlayer st.players pid).getD (mkPlayer pid uname)).wallet.usd := by
      rw [hnf]
      simpa [mkPlayer] using husd2
    have hplace := placeBet_ok st r pid uname usd cur price now hr hwait husd hcur hprice hbal
    rw [hnf] at hplace
    simp only [Option.getD_none, hupd] at hplace
    exact ⟨_, _, hplace, rfl, _, findPlayer_savePlayer _ _, rfl⟩

theorem C10_starting_balance_witness :
    findPlayer [] "p9" = none ∧
    (walletCreate emptyPlayersState "p9" "carol" =
      ({ emptyPlayersState with players := savePlayer emptyPlayersState.players (mkPlayer "p9" "carol") },
       .ok (mkPlayer "p9" "carol")) ∧
     (mkPlayer "p9" "carol").wallet = { btc := 0, eth := 0, usd := 1000 }) ∧
    (∃ st' receipt,
      GameService.placeBet emptyPlayersState allWritesOk "p9" "carol" 10 "btc"
          (some 10000) 0 =
        (st', .ok receipt) ∧
      receipt.playerBalance = { btc := 0, eth := 0, usd := 1000 - 10 } ∧
      ∃ p', findPlayer st'.players "p9" = some p' ∧
        p'.wallet = { btc := 0, eth := 0, usd := 1000 - 10 }) := by
  refine ⟨rfl, ?_⟩
  exact C10_starting_balance emptyPlayersState (GameRound.create "r1" 0 2 "seed" [])
    "p9" "carol" "btc" 10 10000 0 rfl rfl rfl rfl (by norm_num) (by norm_num)
    (by simp [CryptoUtils.isValidCurrency, lowerStr, lowerChar]) (by norm_num)

/-- C3 (the code at the failing input): a valid 10 USD wager placement whose
wallet-debit write rejects right after the wager append was applied: the
call reports failure, yet the round's wager list has gained the bet while
the player store is untouched — a recorded-but-undebited wager is left
behind, so placeBet is not free of partial effect on mid-sequence failure. -/
theorem C3_placeBet_partial_effect :
    GameService.placeBet sampleWaitingState ⟨true, false, true, true⟩
        "p1" "alice" 10 "btc" (some 10000) 0 =
      ({ sampleWaitingState with
           currentRound := some ((GameRound.create "r1" 0 2 "seed" []).addBet
             (mkBet "p1" "alice" 10 (round8 (10 / 10000)) (lowerStr "btc") 10000 0)) },
       .error .dbFailure) ∧
    ((GameRound.create "r1" 0 2 "seed" []).addBet
      (mkBet "p1" "alice" 10 (round8 (10 / 10000)) (lowerStr "btc") 10000 0)).bets.length = 1 ∧
    ({ sampleWaitingState with
         currentRound := some ((GameRound.create "r1" 0 2 "seed" []).addBet
           (mkBet "p1" "alice" 10 (round8 (10 / 10000)) (lowerStr "btc") 10000 0)) } :
      ServiceState).players = sampleWaitingState.players := by
  have hconv : CryptoUtils.usdToCrypto 10 10000 = some (round8 (10 / 10000)) := by
    rw [CryptoUtils.usdToCrypto, if_neg]
    push_neg
    norm_num
  have hfind : findPlayer sampleWaitingState.players "p1" = some samplePlayer := by
    simp [findPlayer, sampleWaitingState, samplePlayer, mkPlayer, List.find?]
  refine ⟨?_, rfl, rfl⟩
  have hcr : sampleWaitingState.currentRound = some (GameRound.create "r1" 0 2 "seed" []) := rfl
  simp only [GameService.placeBet, hcr, hconv, hfind]
  rw [if_neg (by norm_num), if_neg (by simp [CryptoUtils.isValidCurrency, lowerStr, lowerChar]),
    if_neg (by simp [GameRound.create]), if_neg (by norm_num),
    if_neg (by simp only [Option.getD_some]; norm_num [samplePlayer, mkPlayer]),
    if_neg (by simp), if_pos (by simp)]

/-- C6: generateCrashPoint concatenates seed and roundId (joined by a
hyphen), hashes with SHA-256, reads the first four digest bytes as a
big-endian unsigned integer, normalizes it to randomValue in [0,1), computes
max(1, (1/(1-r))*(1-houseEdge)) with houseEdge 0.01, and clamps at the
default maximum 100; being a pure function of its two string arguments it is
deterministic and side-effect-free, and the result always lies in [1, 100]. -/
theorem C6_crash_point_algorithm (seed roundId : String) :
    (CryptoUtils.generateCrashPoint seed roundId).randomValue =
      (Sha256.readUInt32BE (Sha256.digestBytes (Sha256.sha256
        (Sha256.utf8Bytes (seed ++ "-" ++ roundId)))) : ℚ) / 2 ^ 32 ∧
    0 ≤ (CryptoUtils.generateCrashPoint seed roundId).randomValue ∧
    (CryptoUtils.generateCrashPoint seed roundId).randomValue < 1 ∧
    (CryptoUtils.generateCrashPoint seed roundId).crashPoint =
      min (max 1 ((1 / (1 - (CryptoUtils.generateCrashPoint seed roundId).randomValue)) *
        (1 - CryptoUtils.houseEdge))) 100 ∧
    1 ≤ (CryptoUtils.generateCrashPoint seed roundId).crashPoint ∧
    (CryptoUtils.generateCrashPoint seed roundId).crashPoint ≤ 100 := by
  refine ⟨rfl, randomValue_nonneg seed roundId, randomValue_lt_one seed roundId, ?_,
    one_le_crashPoint seed roundId, crashPoint_le_hundred seed roundId⟩
  simp [CryptoUtils.generateCrashPoint, CryptoUtils.maxCrash]

/-- C7: the provably-fair round trip: verifyCrashPoint accepts the exact
crash point generateCrashPoint produced for the same seed and roundId, and
rejects every candidate that differs from it by more than the 1e-3
tolerance. -/
theorem C7_verify_roundtrip (seed roundId : String) (candidate : ℚ) :
    CryptoUtils.verifyCrashPoint (CryptoUtils.generateCrashPoint seed roundId).crashPoint
      seed roundId = true ∧
    (1 / 1000 < qabs ((CryptoUtils.generateCrashPoint seed roundId).crashPoint - candidate) →
      CryptoUtils.verifyCrashPoint candidate seed roundId = false) := by
  constructor
  · rw [CryptoUtils.verifyCrashPoint]
    simp [qabs]
  · intro hfar
    rw [CryptoUtils.verifyCrashPoint]
    simp only [decide_eq_false_iff_not]
    intro hclose
    linarith

theorem C7_verify_roundtrip_witness :
    CryptoUtils.verifyCrashPoint (CryptoUtils.generateCrashPoint "a" "b").crashPoint
      "a" "b" = true ∧
    CryptoUtils.verifyCrashPoint 1000 "a" "b" = false := by
  refine ⟨(C7_verify_roundtrip "a" "b" 1000).1, (C7_verify_roundtrip "a" "b" 1000).2 ?_⟩
  have h1 := crashPoint_le_hundred "a" "b"
  rw [qabs, if_pos (by linarith)]
  linarith

/-- C8 (the code at the failing input): the multiplier clock has no guard for
negative elapsed time: at elapsedTime = -1000ms with the default growth
factor 0.01 the source computes 1 + (-1) * 0.01 and returns 0.99 — a
sub-1.0 multiplier — where the spec and the repository's own unit test
(test-2.js: calculateMultiplier(-1000) should equal 1.0) require 1.0. -/
theorem C8_negative_elapsed_returns_sub_one :
    CryptoUtils.calculateMultiplier (-1000) (1 / 100) = 99 / 100 ∧
    CryptoUtils.calculateMultiplier (-1000) (1 / 100) < 1 := by
  have h : CryptoUtils.calculateMultiplier (-1000) (1 / 100) = 99 / 100 := by
    rw [CryptoUtils.calculateMultiplier]
    show round4 (1 + -1000 / 1000 * (1 / 100)) = 99 / 100
    rw [round4, ratFloor_eq_floor]
    have harg : ((1 + -1000 / 1000 * (1 / 100) : ℚ)) * 10000 + 1 / 2 = 19801 / 2 := by
      norm_num
    rw [harg]
    have hfl : ⌊(19801 / 2 : ℚ)⌋ = (9900 : ℤ) := Int.floor_eq_iff.mpr (by norm_num)
    rw [hfl]
    norm_num
  exact ⟨h, by rw [h]; norm_num⟩
